import Mathlib

/-!
Shallow embedding of the knowledge-graph and vector-embedding core of the
TeamLogic repository (src/knowledge_graph.py and src/vector_embedding.py).

Conventions of the embedding:
  - Python dictionaries are association lists over String keys, with
    first-match lookup and replace-first-or-append update (Python dicts keep
    insertion order and keep the position of a key on reassignment).
  - Python sets are Finset String.
  - Python floats (relationship confidences, similarity scores) are rationals.
  - A raised exception is an Except.error result; the KnowledgeGraphError and
    VectorEmbeddingError classes carry only a message string.
  - Entity and relationship timestamps (datetime.now wall-clock stamps) are
    omitted: no verified claim observes them.
  - String primitives (lower, strip, split, substring test) are implemented
    here over the character list of the string so that closed terms reduce.
-/

namespace TeamLogic

/-- ASCII lowercasing of one character, the effect of Python str.lower on
ASCII text (the only text appearing in this development). -/
def asciiLowerChar (c : Char) : Char :=
  if 65 ≤ c.toNat ∧ c.toNat ≤ 90 then Char.ofNat (c.toNat + 32) else c

/-- Python str.lower, modelled for ASCII text. -/
def lowerStr (s : String) : String := ⟨s.data.map asciiLowerChar⟩

/-- Whitespace characters recognised by Python str.strip and str.split. -/
def isSpaceChar (c : Char) : Bool := c = ' ' || c = '\t' || c = '\n' || c = '\r'

/-- Python str.strip: drop leading and trailing whitespace. -/
def stripStr (s : String) : String :=
  ⟨((s.data.dropWhile isSpaceChar).reverse.dropWhile isSpaceChar).reverse⟩

/-- Whether the first list occurs at the head of the second. -/
def headMatches : List Char → List Char → Bool
  | [], _ => true
  | _ :: _, [] => false
  | a :: as, b :: bs => a == b && headMatches as bs

/-- Whether the first list occurs contiguously anywhere in the second. -/
def subChars (needle : List Char) : List Char → Bool
  | [] => needle.isEmpty
  | c :: rest => headMatches needle (c :: rest) || subChars needle rest

/-- The Python substring test: needle in hay. The empty needle matches. -/
def strContainsSub (hay needle : String) : Bool := subChars needle.data hay.data

/-- Worker for splitWS; the accumulator holds the current token reversed. -/
def splitWSAux : List Char → List Char → List String
  | cur, [] => if cur.isEmpty then [] else [⟨cur.reverse⟩]
  | cur, c :: rest =>
    if isSpaceChar c then
      if cur.isEmpty then splitWSAux [] rest
      else ⟨cur.reverse⟩ :: splitWSAux [] rest
    else splitWSAux (c :: cur) rest

/-- Python str.split with no argument: split on whitespace runs, no empty
tokens. -/
def splitWS (s : String) : List String := splitWSAux [] s.data

/-- Worker for splitOnChar; the accumulator holds the current piece reversed. -/
def splitOnCharAux : List Char → Char → List Char → List String
  | cur, _, [] => [⟨cur.reverse⟩]
  | cur, sep, c :: rest =>
    if c == sep then ⟨cur.reverse⟩ :: splitOnCharAux [] sep rest
    else splitOnCharAux (c :: cur) sep rest

/-- Python str.split with a one-character separator: keeps empty pieces. -/
def splitOnChar (sep : Char) (s : String) : List String := splitOnCharAux [] sep s.data

/-- Python sep.join for a single-space separator. -/
def joinSpace : List String → String
  | [] => ""
  | [t] => t
  | t :: rest => t ++ " " ++ joinSpace rest

/-- ASCII letter test for one character. -/
def isAsciiAlphaChar (c : Char) : Bool :=
  97 ≤ (asciiLowerChar c).toNat && (asciiLowerChar c).toNat ≤ 122

/-- Python str.isalpha, modelled for ASCII text: nonempty and all letters. -/
def isAlphaToken (s : String) : Bool := !s.data.isEmpty && s.data.all isAsciiAlphaChar

/-- First-match lookup in an association list, the Python dict read. -/
def lookupAssoc {β : Type} : List (String × β) → String → Option β
  | [], _ => none
  | p :: rest, k => if p.1 = k then some p.2 else lookupAssoc rest k

/-- Replace-first-or-append update, the Python dict assignment: an existing
key keeps its position, a new key goes to the end. -/
def updateAssoc {β : Type} : List (String × β) → String → β → List (String × β)
  | [], k, v => [(k, v)]
  | p :: rest, k, v => if p.1 = k then (k, v) :: rest else p :: updateAssoc rest k v

/-- Key deletion, the Python del statement on a dict. -/
def eraseKey {β : Type} (l : List (String × β)) (k : String) : List (String × β) :=
  l.filter (fun p => p.1 ≠ k)

/-- Deduplicate keeping the first occurrence of each element, the order in
which networkx iterates the distinct neighbours of a node. -/
def dedupKeepFirst (l : List String) : List String :=
  l.foldl (fun acc x => if x ∈ acc then acc else acc ++ [x]) []

/-- Closed tagged variant for the duck-typed attribute values the Python code
stores in entity attribute maps: strings, lists, nested mappings, and an
opaque constructor for every other scalar (numbers, booleans, null), which
the extraction and inference code skips. -/
inductive AttrValue where
  | str : String → AttrValue
  | listv : List AttrValue → AttrValue
  | dict : List (String × AttrValue) → AttrValue
  | other : AttrValue

/-- An entity attribute map. -/
abbrev Attrs := List (String × AttrValue)

/-- An entity of the knowledge graph (class Entity): id, type and attribute
map; the created_at and updated_at wall-clock stamps are omitted. -/
structure Entity where
  id : String
  type : String
  attributes : Attrs

/-- A relationship of the knowledge graph (class Relationship); the
created_at stamp is omitted. The stored edge data of the graph index is the
dictionary form of exactly these fields, so an edge is modelled by the
relationship record itself. -/
structure Relationship where
  source_id : String
  target_id : String
  type : String
  attributes : Attrs
  confidence : ℚ

/-- The argument of add_entity: a raw record in which id may be missing or
falsy (modelled as the empty string) and type and attributes may be absent. -/
structure EntityIn where
  id : String
  type : Option String
  attributes : Option Attrs

/-- The state of one KnowledgeGraph instance: the entities dict, the flat
relationships list, and the networkx MultiDiGraph modelled as its node list
plus its edge list (parallel edges allowed, insertion order kept). -/
structure KGState where
  entities : List (String × Entity)
  relationships : List Relationship
  nodes : List String
  edges : List Relationship

/-- The state of a freshly constructed KnowledgeGraph. -/
def emptyKG : KGState := ⟨[], [], [], []⟩

/-- networkx add_node: a node already present is kept in place. -/
def addNode (nodes : List String) (n : String) : List String :=
  if n ∈ nodes then nodes else nodes ++ [n]

/-- KnowledgeGraph.add_entity: reject a missing or falsy id, otherwise build
the Entity (type defaults to unknown, attributes to the empty map), assign it
in the entities dict — silently replacing any entity already stored under the
same id — and mirror the node into the graph. -/
def add_entity (st : KGState) (entity_data : EntityIn) : Except String (KGState × Entity) :=
  if entity_data.id = "" then .error "Entity must have an id field"
  else
    let entity : Entity :=
      ⟨entity_data.id, entity_data.type.getD "unknown", entity_data.attributes.getD []⟩
    .ok ({ st with
            entities := updateAssoc st.entities entity_data.id entity,
            nodes := addNode st.nodes entity_data.id }, entity)

/-- KnowledgeGraph.update_entity: merge the new keys into the stored
attribute map of an existing entity; error if the id is absent. -/
def update_entity (st : KGState) (entity_id : String) (new_attributes : Attrs) :
    Except String KGState :=
  match lookupAssoc st.entities entity_id with
  | none => .error ("Entity " ++ entity_id ++ " not found")
  | some ent =>
    let ent2 : Entity :=
      { ent with attributes := new_attributes.foldl (fun a p => updateAssoc a p.1 p.2) ent.attributes }
    .ok { st with entities := updateAssoc st.entities entity_id ent2 }

/-- KnowledgeGraph.remove_entity: error if absent; otherwise delete the
entity, remove the node (networkx remove_node also deletes every incident
edge), and filter the flat relationship list down to relationships that touch
the removed id on neither side. -/
def remove_entity (st : KGState) (entity_id : String) : Except String KGState :=
  match lookupAssoc st.entities entity_id with
  | none => .error ("Entity " ++ entity_id ++ " not found")
  | some _ =>
    .ok { st with
          entities := eraseKey st.entities entity_id,
          nodes := st.nodes.filter (fun n => n ≠ entity_id),
          edges := st.edges.filter
            (fun e => !(e.source_id == entity_id) && !(e.target_id == entity_id)),
          relationships := st.relationships.filter
            (fun r => !(r.source_id == entity_id) && !(r.target_id == entity_id)) }

/-- KnowledgeGraph.add_relationship: check that the source and then the
target id are present (erroring before any mutation), then append the new
relationship to the flat list and insert the edge into the graph. No
duplicate check of any kind is performed. -/
def add_relationship (st : KGState) (source_id target_id relation_type : String)
    (attributes : Option Attrs) (confidence : ℚ) : Except String (KGState × Relationship) :=
  if (lookupAssoc st.entities source_id).isNone then
    .error ("Source entity " ++ source_id ++ " not found")
  else if (lookupAssoc st.entities target_id).isNone then
    .error ("Target entity " ++ target_id ++ " not found")
  else
    let relationship : Relationship :=
      ⟨source_id, target_id, relation_type, attributes.getD [], confidence⟩
    .ok ({ st with
            relationships := st.relationships ++ [relationship],
            edges := st.edges ++ [relationship],
            nodes := addNode (addNode st.nodes source_id) target_id }, relationship)

/-- networkx successors: the distinct targets of edges leaving n, in first
insertion order. -/
def successorsOf (edges : List Relationship) (n : String) : List String :=
  dedupKeepFirst (edges.filterMap (fun e => if e.source_id = n then some e.target_id else none))

/-- networkx predecessors: the distinct sources of edges entering n. -/
def predecessorsOf (edges : List Relationship) (n : String) : List String :=
  dedupKeepFirst (edges.filterMap (fun e => if e.target_id = n then some e.source_id else none))

/-- The keyed edge dictionary graph[u][v]: all parallel edges from u to v in
insertion order. -/
def edgesBetween (edges : List Relationship) (u v : String) : List Relationship :=
  edges.filter (fun e => e.source_id == u && e.target_id == v)

/-- The filter applied to each edge in find_relationships: a falsy
relation_type argument (absent, or the empty string) matches everything. -/
def relTypeMatches (relation_type : Option String) (e : Relationship) : Bool :=
  match relation_type with
  | none => true
  | some t => t == "" || e.type == t

/-- KnowledgeGraph.find_relationships: an id absent from the entities dict
returns the empty list (no exception); otherwise collect the outgoing edge
records (per successor) and then the incoming edge records (per
predecessor), each filtered by the optional relation type. -/
def find_relationships (st : KGState) (entity_id : String) (relation_type : Option String) :
    List Relationship :=
  if (lookupAssoc st.entities entity_id).isNone then []
  else
    let outgoing := (successorsOf st.edges entity_id).flatMap
      (fun t => (edgesBetween st.edges entity_id t).filter (relTypeMatches relation_type))
    let incoming := (predecessorsOf st.edges entity_id).flatMap
      (fun s => (edgesBetween st.edges s entity_id).filter (relTypeMatches relation_type))
    outgoing ++ incoming

/-- The undirected neighbour set of a node: successors united with
predecessors. -/
def neighborsOf (edges : List Relationship) (n : String) : Finset String :=
  (successorsOf edges n).toFinset ∪ (predecessorsOf edges n).toFinset

/-- The loop body of get_connected_entities, one recursive step per loop
iteration: expand the current frontier, merge it into the visited set, then
set the new frontier to the expansion minus the just-updated visited set, and
stop when the frontier is empty. This mirrors the Python statement order
exactly: the subtraction happens after the visited set has absorbed the
expansion. -/
def connectedLoop (edges : List Relationship) :
    Nat → Finset String → Finset String → Finset String
  | 0, connected, _ => connected
  | fuel + 1, connected, current =>
    let next_level := current.biUnion (neighborsOf edges)
    let connected2 := connected ∪ next_level
    let current2 := next_level \ connected2
    if current2 = ∅ then connected2
    else connectedLoop edges fuel connected2 current2

/-- KnowledgeGraph.get_connected_entities: empty set for an unknown id,
otherwise run the bounded expansion loop starting from the singleton
frontier. -/
def get_connected_entities (st : KGState) (entity_id : String) (max_depth : Nat) :
    Finset String :=
  if (lookupAssoc st.entities entity_id).isNone then ∅
  else connectedLoop st.edges max_depth ∅ {entity_id}

/-- Read a string attribute with the empty-string default, the pattern
attrs.get(key, '') of the inference heuristics. A non-string stored value
would make the subsequent .lower() call raise in Python; the model restricts
attention to string-valued or absent attributes, which covers every input in
this development. -/
def getStrAttr (e : Entity) (key : String) : String :=
  match lookupAssoc e.attributes key with
  | some (.str s) => s
  | _ => ""

/-- KnowledgeGraph._check_employment_relationship: the lowercased
organization name occurs as a substring of the lowercased person department,
guarded so that an empty name or department yields false. -/
def check_employment_relationship (person organization : Entity) : Bool :=
  let org_name := lowerStr (getStrAttr organization "name")
  let person_company := lowerStr (getStrAttr person "department")
  if org_name ≠ "" ∧ person_company ≠ "" then strContainsSub person_company org_name
  else false

/-- KnowledgeGraph._check_colleague_relationship: equal nonempty lowercased
departments. -/
def check_colleague_relationship (person1 person2 : Entity) : Bool :=
  let dept1 := lowerStr (getStrAttr person1 "department")
  let dept2 := lowerStr (getStrAttr person2 "department")
  dept1 == dept2 && !(dept1 == "")

/-- KnowledgeGraph._check_project_involvement: only the person-then-project
order is examined, and the lowercased person name must occur as a substring
of the lowercased assignee field (with no emptiness guard, exactly as in the
source). -/
def check_project_involvement (entity1 entity2 : Entity) : Bool :=
  if entity1.type = "person" ∧ entity2.type = "project" then
    strContainsSub (lowerStr (getStrAttr entity2 "assignee"))
      (lowerStr (getStrAttr entity1 "name"))
  else false

/-- The emails attribute read attrs.get('emails', []), modelled for the
list shape: the string items of a stored list, and the empty list when the
attribute is absent or of another shape. -/
def getEmailList (e : Entity) : List String :=
  match lookupAssoc e.attributes "emails" with
  | some (.listv items) =>
    items.filterMap (fun v => match v with | .str s => some s | _ => none)
  | _ => []

/-- The domain parts: for each email containing an at sign, the piece after
the first at sign (Python email.split('@')[1]). -/
def emailDomains (emails : List String) : List String :=
  emails.filterMap (fun email =>
    if email.data.contains '@' then (splitOnChar '@' email).get? 1 else none)

/-- KnowledgeGraph._detect_relationship_between: evaluate the five heuristic
rules in source order and concatenate their proposals. -/
def detect_relationship_between (entity1 entity2 : Entity) : List (String × ℚ) :=
  (if entity1.type = entity2.type then [("similar_to", 3/10)] else []) ++
  (if entity1.type = "person" ∧ entity2.type = "organization" ∧
      check_employment_relationship entity1 entity2 then [("works_for", 4/5)] else []) ++
  (if entity1.type = "person" ∧ entity2.type = "person" ∧
      check_colleague_relationship entity1 entity2 then [("colleague_of", 7/10)] else []) ++
  (if (entity1.type = "project" ∨ entity2.type = "project") ∧
      check_project_involvement entity1 entity2 then [("involved_in", 3/5)] else []) ++
  (let emails1 := getEmailList entity1
   let emails2 := getEmailList entity2
   if emails1 ≠ [] ∧ emails2 ≠ [] ∧
      (emailDomains emails1).any (fun d => (emailDomains emails2).contains d) then
     [("same_domain", 1/2)] else [])

/-- The ordered pairs (entity i, entity j) with i before j, the iteration
order of the nested loops of auto_detect_relationships. -/
def allPairs {α : Type} : List α → List (α × α)
  | [] => []
  | x :: xs => xs.map (fun y => (x, y)) ++ allPairs xs

/-- KnowledgeGraph.auto_detect_relationships: snapshot the entity values,
scan every ordered pair, and for each proposal call add_relationship,
counting the successful calls; a KnowledgeGraphError from add_relationship
is swallowed and the scan continues. Returns the new state and the count. -/
def auto_detect_relationships (st : KGState) : KGState × Nat :=
  let entities_list := st.entities.map Prod.snd
  (allPairs entities_list).foldl
    (fun acc pair =>
      (detect_relationship_between pair.1 pair.2).foldl
        (fun acc2 tc =>
          match add_relationship acc2.1 pair.1.id pair.2.id tc.1 none tc.2 with
          | .ok res => (res.1, acc2.2 + 1)
          | .error _ => acc2)
        acc)
    (st, 0)

/-- The mutating operations of the KnowledgeGraph public interface, used to
describe the graph states reachable from a fresh instance. -/
inductive KGOp where
  | addE : EntityIn → KGOp
  | updE : String → Attrs → KGOp
  | addR : String → String → String → Option Attrs → ℚ → KGOp
  | remE : String → KGOp

/-- Apply one operation, keeping the old state when the call raises. -/
def applyOp (st : KGState) : KGOp → KGState
  | .addE e =>
    match add_entity st e with
    | .ok r => r.1
    | .error _ => st
  | .updE i a =>
    match update_entity st i a with
    | .ok s => s
    | .error _ => st
  | .addR s t ty a c =>
    match add_relationship st s t ty a c with
    | .ok r => r.1
    | .error _ => st
  | .remE i =>
    match remove_entity st i with
    | .ok s => s
    | .error _ => st

/-- The state reached from a fresh KnowledgeGraph by a sequence of
operations. -/
def runOps (ops : List KGOp) : KGState := ops.foldl applyOp emptyKG

/-- The three external NLTK components used by TextPreprocessor: the stop
word set, the Porter stemmer, and the tokenizer (word_tokenize, with a plain
whitespace split fallback). These are external library code, not code of
this repository, so the embedding takes them as parameters; closed
evaluations instantiate them with the concrete basicPipeline below. -/
structure TextPipeline where
  stopWords : List String
  stem : String → String
  tokenize : String → List String

/-- The hard-coded fallback stop word list of TextPreprocessor, used when
the NLTK corpus is unavailable. -/
def fallbackStopWords : List String :=
  ["the", "a", "an", "and", "or", "but", "in", "on", "at", "to", "for", "of", "with", "by"]

/-- A concrete pipeline: the fallback stop words, whitespace tokenization
(the in-source fallback when NLTK punkt is unavailable), and the stemmer
modelled as the identity. -/
def basicPipeline : TextPipeline := ⟨fallbackStopWords, fun s => s, splitWS⟩

/-- TextPreprocessor.preprocess_text: lowercase, tokenize, keep the
alphabetic non-stop-word tokens, stem each, and join with single spaces.
(The isinstance string check of the source always passes in this typed
model.) -/
def preprocess_text (pp : TextPipeline) (text : String) : String :=
  let tokens := pp.tokenize (lowerStr text)
  let processed :=
    (tokens.filter (fun t => isAlphaToken t && !(pp.stopWords.contains t))).map pp.stem
  joinSpace processed

/-- The string items of a list value: a list contributes only its string
items, at the top level and inside nested dicts alike (nested dicts inside
lists are not recursed into, exactly as in the source). -/
def stringsOfList (items : List AttrValue) : List String :=
  items.filterMap (fun v => match v with | .str s => some s | _ => none)

mutual

/-- The text parts contributed by one attribute value, shared by
extract_text_from_entity and _extract_text_from_dict (both treat strings,
lists and nested dicts the same way and skip other scalars). -/
def textsOfValue : AttrValue → List String
  | .str s => [s]
  | .listv items => stringsOfList items
  | .dict d => textsOfAttrs d
  | .other => []

/-- TextPreprocessor._extract_text_from_dict: concatenate the text parts of
every value of the mapping, in order. -/
def textsOfAttrs : List (String × AttrValue) → List String
  | [] => []
  | (_, v) :: rest => textsOfValue v ++ textsOfAttrs rest

end

/-- The argument shape of the embedder operations: a plain entity record
(id, type, attributes) in which the empty string models a missing or falsy
id or type. -/
structure EntityData where
  id : String
  type : String
  attributes : Attrs

/-- TextPreprocessor.extract_text_from_entity: join the id, the type and
every extracted attribute string with spaces, then run preprocess_text. -/
def extract_text_from_entity (pp : TextPipeline) (e : EntityData) : String :=
  preprocess_text pp (joinSpace ([e.id, e.type] ++ textsOfAttrs e.attributes))

/-- The state of one VectorEmbedder with embedding method tfidf: whether the
vectorizer attribute is None (after construction it never is, because the
constructor builds the TfidfVectorizer object immediately), the fitted
vocabulary (none until a fit has run — sklearn transform on an unfitted
vectorizer raises NotFittedError), the stored embeddings dict, and the
cached normalized texts dict. -/
structure EmbState where
  vectorizerIsNone : Bool
  fittedVocab : Option (List String)
  embeddings : List (String × List ℚ)
  entity_texts : List (String × String)

/-- A freshly constructed VectorEmbedder with the tfidf method: the
constructor immediately builds the vectorizer object, so vectorizerIsNone is
false, but nothing has been fitted yet and no vectors are stored. -/
def freshTfidfEmbedder : EmbState :=
  { vectorizerIsNone := false, fittedVocab := none, embeddings := [], entity_texts := [] }

/-- The whitespace tokens of a normalized document, for the vectorizer
model. -/
def tokensOf (text : String) : List String := splitWS text

/-- The adjacent-pair bigrams of a token list. -/
def bigramsOf : List String → List String
  | a :: b :: rest => (a ++ " " ++ b) :: bigramsOf (b :: rest)
  | _ => []

/-- The unigram and bigram terms of one document; modelled from the external
vectorizer configuration ngram_range equal to (1, 2). -/
def docTerms (text : String) : List String :=
  tokensOf text ++ bigramsOf (tokensOf text)

/-- Occurrences of a term in a document term list, as a rational weight. -/
def countOcc (t : String) (l : List String) : ℚ :=
  ((l.filter (fun x => x == t)).length : ℚ)

/-- Model of the external sklearn transform: projecting one normalized
document into a fitted vocabulary gives exactly one weight per vocabulary
term, so a term outside the fitted vocabulary contributes nothing and no
re-fit happens. The weights are modelled as raw term counts: no claim
verified in this development depends on the tf-idf weighting scheme, only on
which coordinates exist. -/
def transformVec (vocab : List String) (text : String) : List ℚ :=
  vocab.map (fun t => countOcc t (docTerms text))

/-- Model of the external sklearn fit_transform: build the vocabulary from
all documents and return one row per document. -/
def fitTransformModel (texts : List String) : List String × List (List ℚ) :=
  let vocab := dedupKeepFirst (texts.flatMap docTerms)
  (vocab, texts.map (transformVec vocab))

/-- The loop body of the collection phase of fit_embeddings: skip an entity
with a falsy id, skip an entity whose normalized text strips to the empty
string, and keep the pair of id and text otherwise. -/
def collectEntityText (pp : TextPipeline) (e : EntityData) : Option (String × String) :=
  if e.id = "" then none
  else
    let text := extract_text_from_entity pp e
    if stripStr text = "" then none else some (e.id, text)

/-- VectorEmbedder.fit_embeddings: raise on an empty entity list; collect,
in order, the id and normalized text of every entity whose id is truthy and
whose text is nonempty after stripping, caching each such text; raise when
nothing was collected; otherwise fit the vectorizer on the collected texts
and store one embedding per collected id. An entity that contributed no text
gets no vector at all. -/
def fit_embeddings (pp : TextPipeline) (st : EmbState) (entities : List EntityData) :
    Except String EmbState :=
  if entities.isEmpty then .error "No entities provided for fitting"
  else if (entities.filterMap (collectEntityText pp)).isEmpty then
    .error "No valid text found in entities"
  else
    .ok { st with
          fittedVocab := some
            (fitTransformModel ((entities.filterMap (collectEntityText pp)).map Prod.snd)).1,
          entity_texts := (entities.filterMap (collectEntityText pp)).foldl
            (fun m p => updateAssoc m p.1 p.2) st.entity_texts,
          embeddings := (((entities.filterMap (collectEntityText pp)).map Prod.fst).zip
              (fitTransformModel
                ((entities.filterMap (collectEntityText pp)).map Prod.snd)).2).foldl
            (fun m p => updateAssoc m p.1 p.2) st.embeddings }

/-- VectorEmbedder.add_entity_embedding: return None for a falsy id or empty
normalized text; when the vectorizer attribute is None — a branch no
constructed tfidf embedder can reach — fit on the singleton list; otherwise
transform the text with the existing vectorizer inside a try block: on an
unfitted vectorizer the transform raises NotFittedError, the except clause
swallows it, and None is returned with nothing stored; on a fitted
vectorizer the projection is stored and returned. -/
def add_entity_embedding (pp : TextPipeline) (st : EmbState) (entity : EntityData) :
    Except String (EmbState × Option (List ℚ)) :=
  if entity.id = "" then .ok (st, none)
  else
    let text := extract_text_from_entity pp entity
    if stripStr text = "" then .ok (st, none)
    else if st.vectorizerIsNone then
      match fit_embeddings pp st [entity] with
      | .error e => .error e
      | .ok st2 => .ok (st2, lookupAssoc st2.embeddings entity.id)
    else
      match st.fittedVocab with
      | none => .ok (st, none)
      | some vocab =>
        let embedding := transformVec vocab text
        .ok ({ st with
                embeddings := updateAssoc st.embeddings entity.id embedding,
                entity_texts := updateAssoc st.entity_texts entity.id text }, some embedding)

/-- Stable descending insertion by similarity: the inserted element goes
after every earlier element whose similarity is greater than or equal to its
own, matching the stable Python list.sort with reverse set. -/
def insertDesc (p : String × ℚ) : List (String × ℚ) → List (String × ℚ)
  | [] => [p]
  | q :: rest => if q.2 < p.2 then p :: q :: rest else q :: insertDesc p rest

/-- Stable sort by similarity descending. -/
def sortDescBySim (l : List (String × ℚ)) : List (String × ℚ) :=
  l.foldl (fun acc p => insertDesc p acc) []

/-- VectorEmbedder.semantic_search, parameterized by the external cosine
similarity function (sklearn cosine_similarity is external library code):
empty result when no embeddings are stored or the processed query is empty;
transforming the query on an unfitted vectorizer raises inside the try block
and the handler returns the empty list; otherwise score every stored
embedding in insertion order, keep the scores at least the threshold, sort
by score descending, and truncate to top_k. -/
def semantic_search (sim : List ℚ → List ℚ → ℚ) (pp : TextPipeline) (st : EmbState)
    (query : String) (top_k : Nat) (threshold : ℚ) : List (String × ℚ) :=
  if st.embeddings.isEmpty then []
  else if stripStr (preprocess_text pp query) = "" then []
  else
    match st.fittedVocab with
    | none => []
    | some vocab =>
      (sortDescBySim (st.embeddings.filterMap (fun pr =>
        if threshold ≤ sim (transformVec vocab (preprocess_text pp query)) pr.2 then
          some (pr.1, sim (transformVec vocab (preprocess_text pp query)) pr.2)
        else none))).take top_k

/-! Lemmas about the dictionary model. -/

theorem lookupAssoc_updateAssoc_self {β : Type} (l : List (String × β)) (k : String) (v : β) :
    lookupAssoc (updateAssoc l k v) k = some v := by
  induction l with
  | nil => simp [updateAssoc, lookupAssoc]
  | cons p rest ih =>
    by_cases h : p.1 = k
    · simp [updateAssoc, h, lookupAssoc]
    · simp [updateAssoc, h, lookupAssoc, ih]

theorem lookupAssoc_updateAssoc_ne {β : Type} (l : List (String × β)) (k2 k : String) (v : β)
    (h : k2 ≠ k) : lookupAssoc (updateAssoc l k2 v) k = lookupAssoc l k := by
  induction l with
  | nil => simp [updateAssoc, lookupAssoc, h]
  | cons p rest ih =>
    by_cases hp : p.1 = k2
    · simp [updateAssoc, hp, lookupAssoc, h]
    · simp [updateAssoc, hp, lookupAssoc, ih]

theorem lookupAssoc_foldl_updateAssoc {β : Type} (pairs : List (String × β))
    (m : List (String × β)) (k : String) (hk : k ∉ pairs.map Prod.fst) :
    lookupAssoc (pairs.foldl (fun acc p => updateAssoc acc p.1 p.2) m) k = lookupAssoc m k := by
  induction pairs generalizing m with
  | nil => rfl
  | cons p rest ih =>
    simp only [List.map_cons, List.mem_cons, not_or] at hk
    rw [List.foldl_cons, ih _ hk.2, lookupAssoc_updateAssoc_ne _ _ _ _ (Ne.symm hk.1)]

theorem lookupAssoc_eraseKey_self {β : Type} (l : List (String × β)) (k : String) :
    lookupAssoc (eraseKey l k) k = none := by
  induction l with
  | nil => rfl
  | cons p rest ih =>
    by_cases h : p.1 = k
    · simpa [eraseKey, List.filter_cons, h] using ih
    · simpa [eraseKey, List.filter_cons, h, lookupAssoc] using ih

theorem lookupAssoc_eraseKey_ne {β : Type} (l : List (String × β)) (k2 k : String)
    (h : k ≠ k2) : lookupAssoc (eraseKey l k2) k = lookupAssoc l k := by
  induction l with
  | nil => rfl
  | cons p rest ih =>
    by_cases hp : p.1 = k2
    · simpa [eraseKey, List.filter_cons, hp, lookupAssoc, Ne.symm h] using ih
    · by_cases hk : p.1 = k
      · simp [eraseKey, List.filter_cons, hp, lookupAssoc, hk, h]
      · simpa [eraseKey, List.filter_cons, hp, lookupAssoc, hk] using ih

theorem isSome_lookupAssoc_updateAssoc {β : Type} (l : List (String × β)) (k2 k : String)
    (v : β) (h : (lookupAssoc l k).isSome = true) :
    (lookupAssoc (updateAssoc l k2 v) k).isSome = true := by
  by_cases hk : k2 = k
  · rw [hk, lookupAssoc_updateAssoc_self]; rfl
  · rwa [lookupAssoc_updateAssoc_ne _ _ _ _ hk]

/-! Lemmas about the stable descending sort used by semantic_search. -/

theorem mem_insertDesc (p q : String × ℚ) (l : List (String × ℚ)) :
    q ∈ insertDesc p l ↔ q = p ∨ q ∈ l := by
  induction l with
  | nil => simp [insertDesc]
  | cons r rest ih =>
    by_cases h : r.2 < p.2
    · simp [insertDesc, h]
    · simp only [insertDesc, if_neg h, List.mem_cons, ih]
      tauto

theorem pairwise_insertDesc (p : String × ℚ) (l : List (String × ℚ))
    (h : l.Pairwise (fun a b => b.2 ≤ a.2)) :
    (insertDesc p l).Pairwise (fun a b => b.2 ≤ a.2) := by
  induction l with
  | nil => simp [insertDesc]
  | cons r rest ih =>
    rw [List.pairwise_cons] at h
    by_cases hr : r.2 < p.2
    · rw [insertDesc, if_pos hr, List.pairwise_cons]
      constructor
      · intro x hx
        rcases List.mem_cons.1 hx with hx | hx
        · rw [hx]; exact le_of_lt hr
        · exact le_trans (h.1 x hx) (le_of_lt hr)
      · rw [List.pairwise_cons]; exact h
    · rw [insertDesc, if_neg hr, List.pairwise_cons]
      constructor
      · intro x hx
        rcases (mem_insertDesc p x rest).1 hx with hx | hx
        · rw [hx]; exact not_lt.1 hr
        · exact h.1 x hx
      · exact ih h.2

theorem mem_sortDescBySim (l : List (String × ℚ)) (q : String × ℚ) :
    q ∈ sortDescBySim l ↔ q ∈ l := by
  have key : ∀ acc, q ∈ l.foldl (fun acc p => insertDesc p acc) acc ↔ q ∈ acc ∨ q ∈ l := by
    induction l with
    | nil => intro acc; simp
    | cons p rest ih =>
      intro acc
      rw [List.foldl_cons, ih]
      simp only [mem_insertDesc, List.mem_cons]
      tauto
  rw [sortDescBySim, key]
  simp

theorem pairwise_sortDescBySim (l : List (String × ℚ)) :
    (sortDescBySim l).Pairwise (fun a b => b.2 ≤ a.2) := by
  have key : ∀ acc, acc.Pairwise (fun (a b : String × ℚ) => b.2 ≤ a.2) →
      (l.foldl (fun acc p => insertDesc p acc) acc).Pairwise (fun a b => b.2 ≤ a.2) := by
    induction l with
    | nil => intro acc hacc; exact hacc
    | cons p rest ih =>
      intro acc hacc
      rw [List.foldl_cons]
      exact ih _ (pairwise_insertDesc p acc hacc)
  exact key [] (by simp)

/-- Helper: a Bool Option field that is not None is Some. -/
theorem isSome_of_isNone_false {α : Type} {o : Option α} (h : o.isNone = false) :
    o.isSome = true := by
  cases o <;> simp_all

/-! Concrete inputs used by the closed evaluations below. -/

/-- A person whose department field contains the organization name. -/
def entC1person : EntityIn := ⟨"p", some "person", some [("department", AttrValue.str "acme")]⟩

/-- An organization whose name occurs in the department of entC1person. -/
def entC1org : EntityIn := ⟨"o", some "organization", some [("name", AttrValue.str "acme")]⟩

/-- A two-entity graph on which inference proposes exactly one relationship. -/
def gC1 : KGState := runOps [.addE entC1person, .addE entC1org]

/-- A one-entity graph holding a person under id a. -/
def gC2 : KGState := runOps [.addE ⟨"a", some "person", some []⟩]

/-- A three-node path graph: a to b to c. -/
def gC3 : KGState := runOps
  [.addE ⟨"a", some "ta", some []⟩, .addE ⟨"b", some "tb", some []⟩,
   .addE ⟨"c", some "tc", some []⟩, .addR "a" "b" "t" none 1, .addR "b" "c" "t" none 1]

/-- A two-entity graph with one relationship from a to b. -/
def gC6 : KGState := runOps
  [.addE ⟨"a", some "ta", some []⟩, .addE ⟨"b", some "tb", some []⟩,
   .addR "a" "b" "knows" none 1]

/-- gC6 after removing entity a. -/
def gC6removed : KGState := runOps
  [.addE ⟨"a", some "ta", some []⟩, .addE ⟨"b", some "tb", some []⟩,
   .addR "a" "b" "knows" none 1, .remE "a"]

/-- C9: for a person entity whose department attribute is the string Acme
Engineering and an organization entity whose name attribute is the string
Acme, the pairwise inference proposes exactly the relationship works_for
with confidence 0.8 (the organization name is a case-insensitive substring
of the department field, and no other rule fires for this pair). -/
theorem employment_rule_acme :
    detect_relationship_between
      ⟨"a", "person", [("department", AttrValue.str "Acme Engineering")]⟩
      ⟨"b", "organization", [("name", AttrValue.str "Acme")]⟩
      = [("works_for", 4/5)] := rfl

/-- C1: running auto_detect_relationships a second time on the unchanged
two-entity graph gC1 is not a no-op. The first run adds one works_for
relationship and returns 1; the second run returns 1 again, not 0, and the
relationship list grows to two copies of the same relationship, because
add_relationship never reports an already existing relationship as an error
and the except clause of the scan therefore never fires. -/
theorem auto_detect_rerun_adds_again :
    (auto_detect_relationships gC1).2 = 1 ∧
    (auto_detect_relationships gC1).1.relationships.length = 1 ∧
    (auto_detect_relationships (auto_detect_relationships gC1).1).2 = 1 ∧
    (auto_detect_relationships (auto_detect_relationships gC1).1).1.relationships.length = 2 :=
  ⟨rfl, rfl, rfl, rfl⟩

/-- C2 counterexample: adding a second entity under the already present id a
does not fail; the call succeeds and the stored entity for a silently
changes from the person to the organization. -/
theorem add_entity_duplicate_cex :
    lookupAssoc gC2.entities "a" = some ⟨"a", "person", []⟩ ∧
    (add_entity gC2 ⟨"a", some "organization", some []⟩).isOk = true ∧
    lookupAssoc (runOps [.addE ⟨"a", some "person", some []⟩,
      .addE ⟨"a", some "organization", some []⟩]).entities "a"
      = some ⟨"a", "organization", []⟩ :=
  ⟨rfl, rfl, rfl⟩

/-- C2 amended: for every graph state in which an entity with the given id
is already present, calling add_entity with that id succeeds (no
DuplicateEntity error exists in the code) and silently replaces the stored
entity for that id with a freshly built one. -/
theorem add_entity_duplicate_replaces (st : KGState) (ein : EntityIn)
    (hid : ein.id ≠ "") (_hpresent : (lookupAssoc st.entities ein.id).isSome = true) :
    ∃ st2 ent, add_entity st ein = Except.ok (st2, ent) ∧
      ent = ⟨ein.id, ein.type.getD "unknown", ein.attributes.getD []⟩ ∧
      lookupAssoc st2.entities ein.id = some ent := by
  refine ⟨{ st with
            entities := updateAssoc st.entities ein.id
              ⟨ein.id, ein.type.getD "unknown", ein.attributes.getD []⟩,
            nodes := addNode st.nodes ein.id },
          ⟨ein.id, ein.type.getD "unknown", ein.attributes.getD []⟩, ?_, rfl, ?_⟩
  · unfold add_entity
    rw [if_neg hid]
  · exact lookupAssoc_updateAssoc_self _ _ _

/-- C2 amended, witness: applying the replacement theorem to the concrete
one-person graph gC2. -/
theorem add_entity_duplicate_replaces_witness :
    ∃ st2 ent, add_entity gC2 ⟨"a", some "organization", some []⟩ = Except.ok (st2, ent) ∧
      ent = ⟨"a", "organization", []⟩ ∧
      lookupAssoc st2.entities "a" = some ent :=
  add_entity_duplicate_replaces gC2 ⟨"a", some "organization", some []⟩ (by decide) rfl

/-- C3: on the path graph a to b to c, get_connected_entities from a with
max depth 2 returns only the one-hop neighbour b — not the set of nodes
reachable within two hops, which also contains c — because the loop
subtracts the visited set from the frontier only after merging the frontier
into the visited set, so the frontier is always empty after the first
iteration and the loop breaks. -/
theorem connected_entities_single_hop_only :
    gC3.edges.map (fun e => (e.source_id, e.target_id)) = [("a", "b"), ("b", "c")] ∧
    get_connected_entities gC3 "a" 2 = {"b"} := by
  exact ⟨rfl, by decide⟩

/-- C5: add_relationship with a source or target id that is absent from the
entity store raises KnowledgeGraphError. Both presence checks run before any
mutation, so the error result carries no new state: the relationship list
and the adjacency index of the caller are untouched. -/
theorem add_relationship_missing_endpoint_error (st : KGState)
    (source_id target_id relation_type : String) (attributes : Option Attrs)
    (confidence : ℚ)
    (h : lookupAssoc st.entities source_id = none ∨ lookupAssoc st.entities target_id = none) :
    ∃ msg, add_relationship st source_id target_id relation_type attributes confidence
      = Except.error msg := by
  cases hs : lookupAssoc st.entities source_id with
  | none =>
    exact ⟨"Source entity " ++ source_id ++ " not found", by simp [add_relationship, hs]⟩
  | some es =>
    cases ht : lookupAssoc st.entities target_id with
    | none =>
      exact ⟨"Target entity " ++ target_id ++ " not found", by simp [add_relationship, hs, ht]⟩
    | some et =>
      rcases h with h | h
      · rw [h] at hs; cases hs
      · rw [h] at ht; cases ht

/-- C5 witness: adding a relationship between two ids on the empty graph
errors. -/
theorem add_relationship_missing_endpoint_error_witness :
    ∃ msg, add_relationship emptyKG "x" "y" "t" none 1 = Except.error msg :=
  add_relationship_missing_endpoint_error emptyKG "x" "y" "t" none 1 (Or.inl rfl)

/-- C6 counterexample: after removing entity a from the graph gC6 (which
held one relationship touching a), the call find_relationships on a does
not fail with NotFound: it returns normally with the empty list, by the
explicit early return of the source for an unknown id. -/
theorem find_relationships_after_remove_cex :
    remove_entity gC6 "a" = Except.ok gC6removed ∧
    (find_relationships gC6 "a" none).length = 1 ∧
    lookupAssoc gC6removed.entities "a" = none ∧
    find_relationships gC6removed "a" none = [] :=
  ⟨rfl, rfl, rfl, rfl⟩

/-- C6 amended: removing an entity deletes every relationship in which it is
the source or the target, from the flat relationship list and from the
adjacency index alike, and a subsequent find_relationships call on the
removed id returns the empty list (it does not fail). -/
theorem remove_entity_cascade (st : KGState) (entity_id : String) (st2 : KGState)
    (h : remove_entity st entity_id = Except.ok st2) :
    (∀ r ∈ st2.relationships, r.source_id ≠ entity_id ∧ r.target_id ≠ entity_id) ∧
    (∀ e ∈ st2.edges, e.source_id ≠ entity_id ∧ e.target_id ≠ entity_id) ∧
    (∀ relation_type, find_relationships st2 entity_id relation_type = []) := by
  cases hl : lookupAssoc st.entities entity_id with
  | none => simp [remove_entity, hl] at h
  | some ent =>
    simp only [remove_entity, hl, Except.ok.injEq] at h
    subst h
    refine ⟨?_, ?_, ?_⟩
    · intro r hr
      have hc := (List.mem_filter.1 hr).2
      simp only [Bool.and_eq_true, Bool.not_eq_true', beq_eq_false_iff_ne] at hc
      exact hc
    · intro e he
      have hc := (List.mem_filter.1 he).2
      simp only [Bool.and_eq_true, Bool.not_eq_true', beq_eq_false_iff_ne] at hc
      exact hc
    · intro relation_type
      simp [find_relationships, lookupAssoc_eraseKey_self]

/-- C6 amended, witness: the cascade theorem applied to the concrete graph
gC6, specialised to the untyped find_relationships call. -/
theorem remove_entity_cascade_witness :
    find_relationships gC6removed "a" none = [] :=
  (remove_entity_cascade gC6 "a" gC6removed rfl).2.2 none

/-- Invariant: every relationship in the flat list has both endpoint ids
present in the entities dict. -/
abbrev RelEndpointsPresent (st : KGState) : Prop :=
  ∀ r ∈ st.relationships,
    (lookupAssoc st.entities r.source_id).isSome = true ∧
    (lookupAssoc st.entities r.target_id).isSome = true

/-- Helper for C10: every public mutating operation preserves the endpoint
invariant. -/
theorem applyOp_preserves_endpoints (st : KGState) (op : KGOp)
    (h : RelEndpointsPresent st) : RelEndpointsPresent (applyOp st op) := by
  cases op with
  | addE e =>
    by_cases hid : e.id = ""
    · simpa [applyOp, add_entity, hid] using h
    · simp only [applyOp, add_entity, if_neg hid]
      intro r hr
      rcases h r hr with ⟨h1, h2⟩
      exact ⟨isSome_lookupAssoc_updateAssoc _ _ _ _ h1,
             isSome_lookupAssoc_updateAssoc _ _ _ _ h2⟩
  | updE i a =>
    cases hl : lookupAssoc st.entities i with
    | none => simpa [applyOp, update_entity, hl] using h
    | some ent =>
      simp only [applyOp, update_entity, hl]
      intro r hr
      rcases h r hr with ⟨h1, h2⟩
      exact ⟨isSome_lookupAssoc_updateAssoc _ _ _ _ h1,
             isSome_lookupAssoc_updateAssoc _ _ _ _ h2⟩
  | addR s t ty a c =>
    cases hs : (lookupAssoc st.entities s).isNone with
    | true => simpa [applyOp, add_relationship, hs] using h
    | false =>
      cases ht : (lookupAssoc st.entities t).isNone with
      | true => simpa [applyOp, add_relationship, hs, ht] using h
      | false =>
        simp only [applyOp, add_relationship, hs, ht, Bool.false_eq_true, if_false]
        intro r hr
        rcases List.mem_append.1 hr with hr | hr
        · exact h r hr
        · rw [List.mem_singleton.1 hr]
          exact ⟨isSome_of_isNone_false hs, isSome_of_isNone_false ht⟩
  | remE i =>
    cases hl : lookupAssoc st.entities i with
    | none => simpa [applyOp, remove_entity, hl] using h
    | some ent =>
      simp only [applyOp, remove_entity, hl]
      intro r hr
      have hmem := (List.mem_filter.1 hr).1
      have hc := (List.mem_filter.1 hr).2
      simp only [Bool.and_eq_true, Bool.not_eq_true', beq_eq_false_iff_ne] at hc
      rcases h r hmem with ⟨h1, h2⟩
      constructor
      · rw [lookupAssoc_eraseKey_ne _ _ _ hc.1]; exact h1
      · rw [lookupAssoc_eraseKey_ne _ _ _ hc.2]; exact h2

/-- C10: referential integrity. In every graph state reachable from a fresh
KnowledgeGraph by any sequence of add_entity, update_entity,
add_relationship and remove_entity calls, every relationship in the flat
list has both its source id and its target id present in the entities dict:
add_relationship checks both endpoints before inserting, and remove_entity
cascades the deletion of every incident relationship. -/
theorem referential_integrity (ops : List KGOp) (r : Relationship)
    (hr : r ∈ (runOps ops).relationships) :
    (lookupAssoc (runOps ops).entities r.source_id).isSome = true ∧
    (lookupAssoc (runOps ops).entities r.target_id).isSome = true := by
  have key : ∀ (l : List KGOp) (st : KGState), RelEndpointsPresent st →
      RelEndpointsPresent (l.foldl applyOp st) := by
    intro l
    induction l with
    | nil => intro st h; exact h
    | cons op rest ih =>
      intro st h
      rw [List.foldl_cons]
      exact ih _ (applyOp_preserves_endpoints st op h)
  have base : RelEndpointsPresent emptyKG := by
    intro r hr
    simp [emptyKG] at hr
  exact key ops emptyKG base r hr

/-- C10 witness: the invariant instantiated on a concrete three-operation
trace whose final state holds one relationship. -/
theorem referential_integrity_witness :
    (lookupAssoc (runOps [.addE ⟨"a", some "t", some []⟩, .addE ⟨"b", some "t", some []⟩,
        .addR "a" "b" "knows" none 1]).entities "a").isSome = true :=
  (referential_integrity
    [.addE ⟨"a", some "t", some []⟩, .addE ⟨"b", some "t", some []⟩,
     .addR "a" "b" "knows" none 1]
    ⟨"a", "b", "knows", [], 1⟩ (List.Mem.head _)).1

/-! The embedder claims. -/

/-- The entity used by the embedder evaluations: nonempty extractable
text. -/
def entC4 : EntityData := ⟨"alice", "person", [("name", AttrValue.str "Alice")]⟩

/-- C4: on a freshly constructed tfidf embedder (no space fitted yet),
add_entity_embedding on an entity with nonempty extractable text does not
fit a singleton space and stores no vector. The constructor always builds
the vectorizer object, so the vectorizer-is-None fitting branch is
unreachable; the transform call raises NotFittedError inside the try block,
the handler returns None, and the state is unchanged with the embeddings
dict still empty. -/
theorem add_embedding_unfitted_returns_none :
    stripStr (extract_text_from_entity basicPipeline entC4) ≠ "" ∧
    add_entity_embedding basicPipeline freshTfidfEmbedder entC4
      = Except.ok (freshTfidfEmbedder, none) ∧
    freshTfidfEmbedder.embeddings = [] :=
  ⟨by decide, rfl, rfl⟩

/-- Helper for C7: an entity with a falsy id or empty normalized text is
skipped by the collection phase. -/
theorem collectEntityText_eq_none (pp : TextPipeline) (e : EntityData)
    (h : e.id = "" ∨ stripStr (extract_text_from_entity pp e) = "") :
    collectEntityText pp e = none := by
  rcases h with h | h
  · simp [collectEntityText, h]
  · simp [collectEntityText, h]

/-- Helper for C7: a collected pair comes from an entity with a truthy id
and nonempty normalized text, and carries that id. -/
theorem collectEntityText_eq_some (pp : TextPipeline) (e : EntityData)
    (pr : String × String) (h : collectEntityText pp e = some pr) :
    e.id = pr.1 ∧ e.id ≠ "" ∧ stripStr (extract_text_from_entity pp e) ≠ "" := by
  by_cases h1 : e.id = ""
  · simp [collectEntityText, h1] at h
  · by_cases h2 : stripStr (extract_text_from_entity pp e) = ""
    · simp [collectEntityText, h1, h2] at h
    · simp only [collectEntityText, if_neg h1, if_neg h2, Option.some.injEq] at h
      subst h
      exact ⟨rfl, h1, h2⟩

/-- Helper for C7: the embeddings dict of a successful fit is the fold of
the collected id and vector pairs over the prior embeddings dict. -/
theorem fit_embeddings_ok_embeddings (pp : TextPipeline) (st : EmbState)
    (entities : List EntityData) (st2 : EmbState)
    (h : fit_embeddings pp st entities = Except.ok st2) :
    st2.embeddings = (((entities.filterMap (collectEntityText pp)).map Prod.fst).zip
        (fitTransformModel
          ((entities.filterMap (collectEntityText pp)).map Prod.snd)).2).foldl
      (fun m p => updateAssoc m p.1 p.2) st.embeddings := by
  rw [fit_embeddings] at h
  by_cases h1 : entities.isEmpty
  · rw [if_pos h1] at h; cases h
  · rw [if_neg h1] at h
    by_cases h2 : (entities.filterMap (collectEntityText pp)).isEmpty
    · rw [if_pos h2] at h; cases h
    · rw [if_neg h2] at h
      cases h
      rfl

/-- C7: fit_embeddings over a collection of entities fails with a
VectorEmbeddingError when no entity yields nonempty normalized text (also
when the list itself is empty), and a successful fit assigns vectors only
for entities with a truthy id and nonempty normalized text: an entity whose
normalized text is empty is excluded from the fitted space entirely — its
entry in the embeddings dict is exactly what it was before the fit, so it
gets no vector at all (in particular not a zero vector). -/
theorem fit_embeddings_empty_corpus_and_exclusion (pp : TextPipeline) (st : EmbState)
    (entities : List EntityData) :
    ((∀ e ∈ entities, e.id = "" ∨ stripStr (extract_text_from_entity pp e) = "") →
      ∃ msg, fit_embeddings pp st entities = Except.error msg) ∧
    (∀ st2, fit_embeddings pp st entities = Except.ok st2 →
      ∀ eid, lookupAssoc st2.embeddings eid ≠ lookupAssoc st.embeddings eid →
        ∃ e, e ∈ entities ∧ e.id = eid ∧ e.id ≠ "" ∧
          stripStr (extract_text_from_entity pp e) ≠ "") := by
  constructor
  · intro h
    cases entities with
    | nil => exact ⟨"No entities provided for fitting", rfl⟩
    | cons e0 rest =>
      refine ⟨"No valid text found in entities", ?_⟩
      have hcol : (e0 :: rest).filterMap (collectEntityText pp) = [] := by
        rw [List.filterMap_eq_nil_iff]
        intro a ha
        exact collectEntityText_eq_none pp a (h a ha)
      simp [fit_embeddings, hcol]
  · intro st2 hok eid hne
    by_contra hno
    push_neg at hno
    apply hne
    rw [fit_embeddings_ok_embeddings pp st entities st2 hok]
    apply lookupAssoc_foldl_updateAssoc
    have hlen : ((entities.filterMap (collectEntityText pp)).map Prod.fst).length ≤
        ((fitTransformModel
          ((entities.filterMap (collectEntityText pp)).map Prod.snd)).2).length := by
      simp [fitTransformModel]
    rw [List.map_fst_zip _ _ hlen]
    intro hmem
    rcases List.mem_map.1 hmem with ⟨pr, hpr, hfst⟩
    rcases List.mem_filterMap.1 hpr with ⟨e, he, hce⟩
    rcases collectEntityText_eq_some pp e pr hce with ⟨hid, hid2, htext⟩
    exact htext (hno e he (by rw [hid, hfst]) hid2)

/-- An entity whose id is not purely alphabetic and whose type and
attributes contribute no text: its normalized text is empty. -/
def entC7empty : EntityData := ⟨"x1", "", []⟩

/-- C7 witness: fitting on the singleton list of an entity with empty
normalized text raises. -/
theorem fit_embeddings_empty_corpus_witness :
    ∃ msg, fit_embeddings basicPipeline freshTfidfEmbedder [entC7empty] = Except.error msg :=
  (fit_embeddings_empty_corpus_and_exclusion basicPipeline freshTfidfEmbedder [entC7empty]).1
    (by
      intro e he
      rw [List.mem_singleton] at he
      subst he
      exact Or.inr rfl)

/-- C8: for every state, query, top count and threshold, semantic_search
keeps only entities whose similarity to the query is at least the threshold,
returns them sorted by similarity descending, truncated to the top count;
and whenever the external cosine similarity is bounded by one (which exact
cosine similarity is), the threshold 1.1 filters everything out, so the
result is always the empty list. -/
theorem semantic_search_filters_sorts_truncates (sim : List ℚ → List ℚ → ℚ)
    (pp : TextPipeline) (st : EmbState) (query : String) (top_k : Nat) (threshold : ℚ)
    (hsim : ∀ u v, sim u v ≤ 1) :
    (∀ p ∈ semantic_search sim pp st query top_k threshold, threshold ≤ p.2) ∧
    List.Pairwise (fun (a b : String × ℚ) => b.2 ≤ a.2)
      (semantic_search sim pp st query top_k threshold) ∧
    (semantic_search sim pp st query top_k threshold).length ≤ top_k ∧
    (threshold = 11/10 → semantic_search sim pp st query top_k threshold = []) := by
  unfold semantic_search
  by_cases h1 : st.embeddings.isEmpty
  · simp [h1]
  · rw [if_neg h1]
    by_cases h2 : stripStr (preprocess_text pp query) = ""
    · simp [h2]
    · rw [if_neg h2]
      cases hv : st.fittedVocab with
      | none => simp
      | some vocab =>
        refine ⟨?_, ?_, ?_, ?_⟩
        · intro p hp
          have hp2 := List.take_subset _ _ hp
          have hp3 := (mem_sortDescBySim _ _).1 hp2
          rcases List.mem_filterMap.1 hp3 with ⟨pr, hpr, hif⟩
          by_cases hc : threshold ≤ sim (transformVec vocab (preprocess_text pp query)) pr.2
          · rw [if_pos hc] at hif
            cases hif
            exact hc
          · rw [if_neg hc] at hif
            cases hif
        · exact List.Pairwise.sublist (List.take_sublist _ _) (pairwise_sortDescBySim _)
        · exact List.length_take_le _ _
        · intro ht
          subst ht
          dsimp only
          have hnil : st.embeddings.filterMap (fun pr =>
              if (11:ℚ)/10 ≤ sim (transformVec vocab (preprocess_text pp query)) pr.2 then
                some (pr.1, sim (transformVec vocab (preprocess_text pp query)) pr.2)
              else none) = [] := by
            rw [List.filterMap_eq_nil_iff]
            intro pr hpr
            rw [if_neg]
            exact not_le.2 (lt_of_le_of_lt (hsim _ _) (by norm_num))
          rw [hnil]
          simp [sortDescBySim]

/-- A fitted embedder state with one stored vector, for the search
witness. -/
def stC8 : EmbState :=
  { vectorizerIsNone := false, fittedVocab := some ["alic"],
    embeddings := [("a", [1])], entity_texts := [("a", "alic")] }

/-- C8 witness: on a fitted state with a stored vector, the search with
threshold 1.1 and a similarity bounded by one returns the empty list. -/
theorem semantic_search_filters_sorts_truncates_witness :
    semantic_search (fun _ _ => 0) basicPipeline stC8 "alice" 5 (11/10) = [] :=
  (semantic_search_filters_sorts_truncates (fun _ _ => 0) basicPipeline stC8 "alice" 5 (11/10)
    (fun _ _ => by norm_num)).2.2.2 rfl

end TeamLogic
